import Mathlib

/-!
Verification of the signal-scoring and index-fusion logic of the
khameneiout repository: the Telegram threat scorer and velocity
normalizer (src/signals/telegram_signal.py), the price-crash normalizer
(src/signals/rial_signal.py), and the composite aggregator with its
time-pressure multiplier, rolling-history rate of change and alert
decision (src/aggregator.py).

Modelling conventions:
* Python floats are embedded as exact rationals (`ℚ`); the float literals
  1.3, 1.5, 0.6 ... become the rationals 13/10, 3/2, 6/10 ....
* Python's substring test `kw in text` is embedded as contiguous-sublist
  containment on the lists of unicode code points of the two strings.
* The ambient clock (`datetime.utcnow()`) is passed explicitly: the
  aggregator takes `days` (the already-computed `days_remaining`) and a
  rational `now`; timestamps are rationals in minute units for the
  composite history and hour units for the price history.
* Fields that the scoring logic never reads (the opaque `raw_value`
  evidence dictionaries, the serialized `signals` summary) are omitted.
-/

namespace KhameneiOut

/-- `leadMatch kw l` is true when `kw` is an initial run of `l`
(code-point by code-point). -/
def leadMatch : List Char → List Char → Bool
  | [], _ => true
  | _ :: _, [] => false
  | a :: as, b :: bs => a == b && leadMatch as bs

/-- `hasSub kw l` is true when `kw` occurs contiguously inside `l`. -/
def hasSub (kw : List Char) : List Char → Bool
  | [] => kw.isEmpty
  | b :: bs => leadMatch kw (b :: bs) || hasSub kw bs

/-- Embedding of Python's `kw in text` substring test. -/
def containsStr (text kw : String) : Bool := hasSub kw.data text.data

/-- Subject keywords, copied from src/signals/telegram_signal.py. -/
def KHAMENEI_KEYWORDS : List String := ["خامنه‌ای", "خامنه ای", "رهبر انقلاب", "رهبر معظم", "رهبر جمهوری اسلامی", "آیت‌الله خامنه‌ای"]

/-- Critical-indicator keywords, copied from src/signals/telegram_signal.py. -/
def CRITICAL_KEYWORDS : List String := ["مرگ", "فوت", "درگذشت", "بیمارستان", "بستری", "سکته", "حمله قلبی", "عمل جراحی", "وخیم", "بحرانی", "حال عمومی", "ناتوانی", "ناتوانی از انجام وظایف", "غیرفعال", "غیبت", "ناپدید", "عدم حضور", "جانشین", "جانشینی", "انتخاب جانشین", "اعلام جانشین", "نامزدهای احتمالی", "مرحله گذار", "شورای انتقالی", "تعیین سرپرست", "معاون رهبری", "مجلس خبرگان", "خبرگان رهبری", "جلسه فوق‌العاده خبرگان", "جلسه اضطراری", "گزارش محرمانه خبرگان", "استعفا", "کناره‌گیری", "برکناری", "عزل", "سلب صلاحیت", "لغو اختیار", "پایان رهبری", "تمام شدن دوره", "عزای عمومی", "نماز میت", "وصیت"]

/-- Routine-news keywords, copied from src/signals/telegram_signal.py. -/
def ROUTINE_KEYWORDS : List String := ["دیدار", "سخنرانی", "پیام", "بیانیه", "تشکر", "قدردانی", "سالگرد", "مراسم", "تبریک", "حکم", "انتصاب"]

/-- Figurative slogan patterns from TelegramSignal._score_message. -/
def slogan_patterns : List String := ["مرگ بر خامنه", "مرگ بر"]

/-- Hospitalization-class keywords tested by the first compound boost. -/
def HOSP_KEYWORDS : List String := ["بیمارستان", "بستری", "سکته"]

/-- Severity-class keywords tested by the first compound boost. -/
def SEVERITY_KEYWORDS : List String := ["وخیم", "بحرانی", "حال"]

/-- Literal decease keywords tested by the mortality floor rule. -/
def DEATH_KEYWORDS : List String := ["فوت", "درگذشت"]

/-- The bare mortality keyword whose credit the slogan check suppresses. -/
def KW_MARG : String := "مرگ"

/-- The succession keyword of the second compound boost. -/
def KW_JANESHIN : String := "جانشین"

/-- The experts-assembly keyword of the second compound boost. -/
def KW_KHOBREGAN : String := "خبرگان"

/-- The +2-per-critical-keyword accumulation loop of
`TelegramSignal._score_message`, with the slogan exemption for the bare
mortality keyword. -/
def crit_fold (text : String) (is_slogan : Bool) : Int :=
  CRITICAL_KEYWORDS.foldl
    (fun sc kw =>
      if containsStr text kw then
        (if kw == KW_MARG && is_slogan then sc else sc + 2)
      else sc) 0

/-- The −1-per-routine-keyword loop of `TelegramSignal._score_message`. -/
def routine_fold (text : String) (s : Int) : Int :=
  ROUTINE_KEYWORDS.foldl (fun sc kw => if containsStr text kw then sc - 1 else sc) s

/-- Embedding of `TelegramSignal._score_message` (threat score of one
message, an integer clamped to [-1, 5]). -/
def score_message (text : String) : Int :=
  if text = "" then -1
  else if !(KHAMENEI_KEYWORDS.any (fun kw => containsStr text kw)) then -1
  else
    let is_slogan := slogan_patterns.any (fun p => containsStr text p)
    let s1 := crit_fold text is_slogan
    let s2 := routine_fold text s1
    let s3 := if HOSP_KEYWORDS.any (fun kw => containsStr text kw) &&
                 SEVERITY_KEYWORDS.any (fun kw => containsStr text kw)
              then s2 + 3 else s2
    let s4 := if containsStr text KW_JANESHIN && containsStr text KW_KHOBREGAN
              then s3 + 3 else s3
    let s5 := if DEATH_KEYWORDS.any (fun kw => containsStr text kw) && !is_slogan
              then max s4 4 else s4
    max (-1) (min 5 s5)

/-- One fetched Telegram message: its text and originating channel (the
`message_date` column is never read by the classification). -/
structure Msg where
  text : String
  channel : String

/-- The classification loop of `TelegramSignal.fetch`: messages kept as
critical (empty texts are skipped, a message is critical when its threat
score is at least 3). -/
def critical_messages (msgs : List Msg) : List Msg :=
  msgs.filter (fun m => !(m.text == "") && decide (3 ≤ score_message m.text))

/-- `critical_count` of `TelegramSignal.fetch`. -/
def critical_count (msgs : List Msg) : ℕ := (critical_messages msgs).length

/-- `critical_channels` of `TelegramSignal.fetch`: the number of distinct
channels among the critical messages (`len(set(...))`). -/
def critical_channels (msgs : List Msg) : ℕ :=
  ((critical_messages msgs).map Msg.channel).dedup.length

/-- The base step function of `TelegramSignal.fetch` mapping the critical
count to a 0–100 value. -/
def base_value (c : ℕ) : ℚ :=
  if c = 0 then 0
  else if c = 1 then 25
  else if c = 2 then 50
  else if c = 3 then 75
  else 100

/-- The normalized velocity value of `TelegramSignal.fetch`: step of the
critical count, then the sequential distinct-channel amplifications with
their caps. -/
def velocity_value (msgs : List Msg) : ℚ :=
  let n0 := base_value (critical_count msgs)
  let n1 := if 2 ≤ critical_channels msgs then min 100 (n0 * (13/10)) else n0
  if 3 ≤ critical_channels msgs then min 100 (n1 * (3/2)) else n1

/-- A sample message text joining a subject keyword with a decease
keyword, used to instantiate universally quantified theorems. -/
def sample_critical_text : String :=
  KHAMENEI_KEYWORDS.getD 2 "" ++ " " ++ CRITICAL_KEYWORDS.getD 1 ""

/-- A sample message text joining the figurative slogan with a subject
keyword, used to instantiate universally quantified theorems. -/
def sample_slogan_text : String :=
  slogan_patterns.getD 0 "" ++ " " ++ KHAMENEI_KEYWORDS.getD 2 ""

/-- Modelled from the claim's words (C7): the velocity value as the base
step of the critical count, amplified by the distinct-channel multipliers
and capped at 100. -/
def claim_velocity_value (c ch : ℕ) : ℚ :=
  let base : ℚ :=
    if c = 0 then 0 else if c = 1 then 25 else if c = 2 then 50
    else if c = 3 then 75 else 100
  let amp1 := if 2 ≤ ch then min 100 (base * (13/10)) else base
  if 3 ≤ ch then min 100 (amp1 * (3/2)) else amp1

/-- Embedding of `RialSignal._get_rate_at`: scan the price history
backwards for the most recent sample at or before `target` (timestamps in
hours). -/
def get_rate_at (hist : List (ℚ × ℚ)) (target : ℚ) : Option ℚ :=
  (hist.reverse.find? (fun p => decide (p.1 ≤ target))).map Prod.snd

/-- The 1-hour percentage change computed by `RialSignal.fetch` after the
current `(now, rate)` sample has been appended.  Python's truthiness test
`if past_rate:` treats both a missing sample and a historical rate of 0
as "no data", giving change 0. -/
def pct_change_1h (hist : List (ℚ × ℚ)) (now rate : ℚ) : ℚ :=
  match get_rate_at (hist ++ [(now, rate)]) (now - 1) with
  | some p => if p = 0 then 0 else ((rate - p) / p) * 100
  | none => 0

/-- The normalized value of `RialSignal.fetch` on a successful price
observation: `min(100, pct * 20)` for a positive 1-hour change, else 0. -/
def rial_value (hist : List (ℚ × ℚ)) (now rate : ℚ) : ℚ :=
  let pct := pct_change_1h hist now rate
  if 0 < pct then min 100 (pct * 20) else 0

/-- The ≥60-day segment formula of the time-pressure multiplier. -/
def seg_ge60 (_d : ℚ) : ℚ := 1

/-- The 30–60-day segment formula of the time-pressure multiplier. -/
def seg_30_60 (d : ℚ) : ℚ := 1 + (60 - d) / 150

/-- The 14–30-day segment formula of the time-pressure multiplier. -/
def seg_14_30 (d : ℚ) : ℚ := 12/10 + (30 - d) / 53

/-- The 7–14-day segment formula of the time-pressure multiplier. -/
def seg_7_14 (d : ℚ) : ℚ := 15/10 + (14 - d) / 14

/-- The 3–7-day segment formula of the time-pressure multiplier. -/
def seg_3_7 (d : ℚ) : ℚ := 2 + (7 - d) / 4

/-- The below-3-days segment formula of the time-pressure multiplier. -/
def seg_lt3 (_d : ℚ) : ℚ := 3

/-- Embedding of `KhameneiAggregator.get_time_pressure_multiplier` as a
function of the integer `days_remaining`. -/
def get_time_pressure_multiplier (days : ℕ) : ℚ :=
  if 60 ≤ days then seg_ge60 days
  else if 30 ≤ days then seg_30_60 days
  else if 14 ≤ days then seg_14_30 days
  else if 7 ≤ days then seg_7_14 days
  else if 3 ≤ days then seg_3_7 days
  else seg_lt3 days

/-- One normalized signal observation (the opaque `raw_value` evidence and
the timestamp are never read by `aggregate`'s scoring). -/
structure SignalOutput where
  name : String
  value : ℚ
  confidence : ℚ

/-- The static weight configuration of `KhameneiAggregator.__init__`. -/
def weights : List (String × ℚ) :=
  [("telegram_velocity", 6/10), ("rial_crash", 4/10), ("state_media_silence", 0)]

/-- `sum(self.weights.values())`. -/
def weightSum : ℚ := (weights.map Prod.snd).sum

/-- The yellow threshold of `KhameneiAggregator.__init__`. -/
def thresholds_yellow : ℚ := 35

/-- The red threshold of `KhameneiAggregator.__init__`. -/
def thresholds_red : ℚ := 65

/-- Static weight of a signal name (0 when the name is not configured,
mirroring that `aggregate` simply skips unconfigured names). -/
def weight_of (n : String) : ℚ :=
  ((weights.find? (fun p => p.1 == n)).map Prod.snd).getD 0

/-- Embedding of the dict comprehension `{s.name: s for s in signals}`
followed by `signal_map[name]`: the last signal carrying the name wins. -/
def lookupLast (signals : List SignalOutput) (n : String) : Option SignalOutput :=
  signals.reverse.find? (fun s => s.name == n)

/-- One iteration of the weighted-fusion loop of
`KhameneiAggregator.aggregate`, accumulating
`(weighted_sum, weighted_confidence, total_weight)`. -/
def agg_step (signals : List SignalOutput) (acc : ℚ × ℚ × ℚ) (nw : String × ℚ) :
    ℚ × ℚ × ℚ :=
  match lookupLast signals nw.1 with
  | some s => (acc.1 + s.value * (nw.2 * s.confidence),
               acc.2.1 + s.confidence * nw.2,
               acc.2.2 + nw.2 * s.confidence)
  | none => acc

/-- The full fusion loop of `KhameneiAggregator.aggregate`. -/
def aggAccum (signals : List SignalOutput) : ℚ × ℚ × ℚ :=
  weights.foldl (agg_step signals) (0, 0, 0)

/-- One fused composite reading (the serialized `signals` summary and the
deadline audit fields are omitted; `timestamp` is in minute units). -/
structure KhameneiIndex where
  score : ℚ
  confidence : ℚ
  level : String
  timestamp : ℚ

/-- Embedding of `KhameneiAggregator.aggregate`: confidence-weighted
fusion, guarded divisions, the time-pressure multiplier, the 100-point
cap and the threshold classification.  The function is total: the
degenerate zero-weight case takes the guarded `else` branch instead of
failing. -/
def aggregate (signals : List SignalOutput) (days : ℕ) (now : ℚ) : KhameneiIndex :=
  let acc := aggAccum signals
  let raw_score := if 0 < acc.2.2 then acc.1 / acc.2.2 else 0
  let confidence := if 0 < acc.2.2 then acc.2.1 / weightSum else 0
  let time_multiplier := get_time_pressure_multiplier days
  let score := min 100 (raw_score * time_multiplier)
  let level :=
    if thresholds_red ≤ score then "RED"
    else if thresholds_yellow ≤ score then "YELLOW"
    else "GREEN"
  ⟨score, confidence, level, now⟩

/-- Embedding of `KhameneiAggregator.get_rate_of_change` (timestamps and
the window in minutes). -/
def get_rate_of_change (history : List KhameneiIndex) (now minutes : ℚ) : Option ℚ :=
  if history.length < 2 then none
  else
    let cutoff := now - minutes
    let recent := history.filter (fun h => decide (cutoff ≤ h.timestamp))
    if recent.length < 2 then none
    else
      match recent with
      | [] => none
      | r0 :: rs => some (((rs.getLastD r0).score) - r0.score)

/-- Embedding of `KhameneiAggregator.should_alert`.  Python's truthiness
test `if roc and roc > 20` reads: the rate of change is not `None`, not
zero, and exceeds 20. -/
def should_alert (history : List KhameneiIndex) (now : ℚ) (current : KhameneiIndex)
    (last_alerted_level : String) : Bool :=
  if current.level ≠ last_alerted_level then true
  else if current.level = "RED" then true
  else
    match get_rate_of_change history now 10 with
    | some roc => if roc ≠ 0 ∧ 20 < roc then true else false
    | none => false


lemma routine_foldl_le (text : String) (l : List String) (a : Int) :
    l.foldl (fun sc kw => if containsStr text kw then sc - 1 else sc) a ≤ a := by
  induction l generalizing a with
  | nil => exact le_refl a
  | cons kw t ih =>
    simp only [List.foldl_cons]
    refine le_trans (ih _) ?_
    by_cases h : containsStr text kw <;> simp [h]

/-- C3: every message text containing a subject keyword and a literal
decease keyword, where the slogan pattern does not match, scores at
least 4 — regardless of how many routine keywords also appear. -/
theorem mortality_floor (text : String)
    (hk : KHAMENEI_KEYWORDS.any (fun kw => containsStr text kw) = true)
    (hd : DEATH_KEYWORDS.any (fun kw => containsStr text kw) = true)
    (hs : slogan_patterns.any (fun p => containsStr text p) = false) :
    4 ≤ score_message text := by
  have hne : ¬ (text = "") := by
    intro h
    rw [h] at hk
    exact absurd hk (by decide)
  unfold score_message
  rw [if_neg hne]
  simp only [hk, hd, hs, Bool.not_true, Bool.not_false, Bool.and_true, if_false,
    Bool.false_eq_true, if_true]
  simp only [le_max_iff, le_min_iff]
  right
  exact ⟨by norm_num, Or.inr (le_refl 4)⟩


lemma crit_foldl_const (text : String) (l : List String)
    (hl : ∀ kw ∈ l, kw ≠ KW_MARG → containsStr text kw = false) (a : Int) :
    l.foldl
      (fun sc kw =>
        if containsStr text kw then
          (if kw == KW_MARG && true then sc else sc + 2)
        else sc) a = a := by
  induction l generalizing a with
  | nil => rfl
  | cons kw t ih =>
    simp only [List.foldl_cons]
    have hstep :
        (if containsStr text kw then
          (if kw == KW_MARG && true then a else a + 2) else a) = a := by
      by_cases hm : kw = KW_MARG
      · simp [hm]
      · rw [hl kw (List.mem_cons_self _ _) hm]
        simp
    rw [hstep]
    exact ih (fun kw hkw hne => hl kw (List.mem_cons_of_mem _ hkw) hne) a

lemma crit_fold_slogan_zero (text : String)
    (hcrit : ∀ kw ∈ CRITICAL_KEYWORDS, kw ≠ KW_MARG → containsStr text kw = false) :
    crit_fold text true = 0 := by
  unfold crit_fold
  exact crit_foldl_const text CRITICAL_KEYWORDS hcrit 0

lemma any_contains_false (text : String) (l : List String)
    (hl : ∀ kw ∈ l, containsStr text kw = false) :
    l.any (fun kw => containsStr text kw) = false := by
  rw [List.any_eq_false]
  intro x hx
  simp [hl x hx]

/-- C4: a message text containing a subject keyword and the figurative
death-to-X slogan phrase but no other critical-indicator keyword scores
at most 0, and the mortality floor condition does not fire. -/
theorem slogan_suppression (text : String)
    (hk : KHAMENEI_KEYWORDS.any (fun kw => containsStr text kw) = true)
    (hs : slogan_patterns.any (fun p => containsStr text p) = true)
    (hcrit : ∀ kw ∈ CRITICAL_KEYWORDS, kw ≠ KW_MARG → containsStr text kw = false) :
    score_message text ≤ 0 ∧
      (DEATH_KEYWORDS.any (fun kw => containsStr text kw) &&
        !(slogan_patterns.any (fun p => containsStr text p))) = false := by
  have hne : ¬ (text = "") := by
    intro h
    rw [h] at hk
    exact absurd hk (by decide)
  have hdeath : DEATH_KEYWORDS.any (fun kw => containsStr text kw) = false := by
    refine any_contains_false text _ ?_
    intro kw hkw
    fin_cases hkw <;> exact hcrit _ (by decide) (by decide)
  have hhosp : HOSP_KEYWORDS.any (fun kw => containsStr text kw) = false := by
    refine any_contains_false text _ ?_
    intro kw hkw
    fin_cases hkw <;> exact hcrit _ (by decide) (by decide)
  have hjan : containsStr text KW_JANESHIN = false :=
    hcrit _ (by decide) (by decide)
  constructor
  · unfold score_message
    rw [if_neg hne]
    simp only [hk, hs, hdeath, hhosp, hjan, Bool.not_true, Bool.and_false,
      Bool.false_and, Bool.false_eq_true, if_false, if_true]
    have hz : crit_fold text true = 0 := crit_fold_slogan_zero text hcrit
    rw [hz]
    have hr : routine_fold text 0 ≤ 0 := routine_foldl_le text ROUTINE_KEYWORDS 0
    simp only [max_le_iff, min_le_iff]
    omega
  · rw [hs, hdeath]
    rfl

/-- C9: the empty (or null) message text scores -1, the irrelevance
sentinel, before any keyword matching. -/
theorem empty_text_sentinel : score_message "" = -1 := rfl


theorem mortality_floor_witness :
    KHAMENEI_KEYWORDS.any (fun kw => containsStr sample_critical_text kw) = true ∧
    4 ≤ score_message sample_critical_text :=
  ⟨by decide, mortality_floor sample_critical_text (by decide) (by decide) (by decide)⟩

theorem slogan_suppression_witness :
    slogan_patterns.any (fun p => containsStr sample_slogan_text p) = true ∧
    score_message sample_slogan_text ≤ 0 :=
  ⟨by decide,
    (slogan_suppression sample_slogan_text (by decide) (by decide) (by decide)).1⟩

lemma channels_le_count (msgs : List Msg) :
    critical_channels msgs ≤ critical_count msgs := by
  unfold critical_channels critical_count
  refine le_trans (List.Sublist.length_le (List.dedup_sublist _)) ?_
  simp

/-- C7: the velocity normalizer value is the step function of the
critical count amplified by the distinct-channel multipliers and capped
at 100; 0 critical messages give value 0, three critical messages from
one channel give 75, and three critical messages across three distinct
channels give 100. -/
theorem velocity_profile :
    (∀ msgs : List Msg, velocity_value msgs =
        claim_velocity_value (critical_count msgs) (critical_channels msgs)) ∧
    (∀ msgs : List Msg, critical_count msgs = 0 → velocity_value msgs = 0) ∧
    (∀ msgs : List Msg, critical_count msgs = 3 → critical_channels msgs = 1 →
        velocity_value msgs = 75) ∧
    (∀ msgs : List Msg, critical_count msgs = 3 → critical_channels msgs = 3 →
        velocity_value msgs = 100) := by
  refine ⟨fun msgs => rfl, fun msgs h0 => ?_, fun msgs h3 h1 => ?_, fun msgs h3 h3c => ?_⟩
  · have hm : critical_messages msgs = [] := List.length_eq_zero.mp h0
    have hch : critical_channels msgs = 0 := by
      unfold critical_channels
      rw [hm]
      rfl
    unfold velocity_value
    rw [h0, hch]
    norm_num [base_value]
  · unfold velocity_value
    rw [h3, h1]
    norm_num [base_value]
  · unfold velocity_value
    rw [h3, h3c]
    norm_num [base_value, min_def]

theorem velocity_profile_witness :
    critical_count [⟨sample_critical_text, "a"⟩, ⟨sample_critical_text, "a"⟩,
      ⟨sample_critical_text, "a"⟩] = 3 ∧
    velocity_value [⟨sample_critical_text, "a"⟩, ⟨sample_critical_text, "a"⟩,
      ⟨sample_critical_text, "a"⟩] = 75 :=
  ⟨by decide,
    velocity_profile.2.2.1 _ (by decide) (by decide)⟩

/-- C10: whenever the critical messages span at least 3 distinct
channels, the velocity value is exactly 100: the critical count is then
at least 3, so the base is at least 75 and the two amplifications
saturate the cap. -/
theorem three_channels_saturate (msgs : List Msg)
    (h : 3 ≤ critical_channels msgs) : velocity_value msgs = 100 := by
  have hc : 3 ≤ critical_count msgs := le_trans h (channels_le_count msgs)
  have h2 : 2 ≤ critical_channels msgs := le_trans (by norm_num) h
  have hb : base_value (critical_count msgs) = 75 ∨
      base_value (critical_count msgs) = 100 := by
    by_cases hcc : critical_count msgs = 3
    · left
      rw [hcc]
      norm_num [base_value]
    · right
      unfold base_value
      rw [if_neg (by omega), if_neg (by omega), if_neg (by omega), if_neg (by omega)]
  unfold velocity_value
  dsimp only
  rw [if_pos h2, if_pos h]
  rcases hb with hb | hb <;> rw [hb] <;> norm_num [min_def]

theorem three_channels_witness :
    velocity_value [⟨sample_critical_text, "a"⟩, ⟨sample_critical_text, "b"⟩,
      ⟨sample_critical_text, "c"⟩] = 100 :=
  three_channels_saturate _ (by decide)


/-- C8: on a successful price observation, the price-crash value equals
min(100, pct * 20) when the 1-hour percentage change is positive and 0
otherwise; a 6% rise in one hour gives 100 and a drop of any magnitude
gives 0. -/
theorem rial_crash_profile (hist : List (ℚ × ℚ)) (now rate : ℚ) :
    (0 < pct_change_1h hist now rate →
      rial_value hist now rate = min 100 (pct_change_1h hist now rate * 20)) ∧
    (pct_change_1h hist now rate ≤ 0 → rial_value hist now rate = 0) ∧
    (∀ p, get_rate_at (hist ++ [(now, rate)]) (now - 1) = some p → p ≠ 0 →
      rate = p + p * (6/100) → rial_value hist now rate = 100) ∧
    (∀ p, get_rate_at (hist ++ [(now, rate)]) (now - 1) = some p → 0 < p →
      rate < p → rial_value hist now rate = 0) := by
  refine ⟨fun hpos => ?_, fun hnp => ?_, fun p hp hp0 hr => ?_, fun p hp hp0 hlt => ?_⟩
  · unfold rial_value
    dsimp only
    rw [if_pos hpos]
  · unfold rial_value
    dsimp only
    rw [if_neg (not_lt.mpr hnp)]
  · have hpct : pct_change_1h hist now rate = 6 := by
      unfold pct_change_1h
      rw [hp]
      dsimp only
      rw [if_neg hp0, hr]
      field_simp
      ring
    unfold rial_value
    dsimp only
    rw [hpct]
    norm_num [min_def]
  · have hpne : p ≠ 0 := ne_of_gt hp0
    have hpct : pct_change_1h hist now rate = ((rate - p) / p) * 100 := by
      unfold pct_change_1h
      rw [hp]
      dsimp only
      rw [if_neg hpne]
    have hneg : pct_change_1h hist now rate < 0 := by
      rw [hpct]
      have hq : (rate - p) / p < 0 := div_neg_of_neg_of_pos (by linarith) hp0
      nlinarith
    unfold rial_value
    dsimp only
    rw [if_neg (not_lt.mpr (le_of_lt hneg))]

theorem rial_crash_witness :
    get_rate_at ([((-2 : ℚ), 50)] ++ [((0 : ℚ), 53)]) (0 - 1) = some 50 ∧
    rial_value [((-2 : ℚ), 50)] 0 53 = 100 := by
  have hg : get_rate_at ([((-2 : ℚ), 50)] ++ [((0 : ℚ), 53)]) (0 - 1) = some 50 := by
    norm_num [get_rate_at, List.find?]
  exact ⟨hg, (rial_crash_profile [((-2 : ℚ), 50)] 0 53).2.2.1 50 hg (by norm_num) (by norm_num)⟩


lemma mult_succ_le (d : ℕ) :
    get_time_pressure_multiplier (d + 1) ≤ get_time_pressure_multiplier d := by
  by_cases h : 60 ≤ d
  · have h1 : 60 ≤ d + 1 := le_trans h (Nat.le_succ d)
    simp [get_time_pressure_multiplier, h, h1, seg_ge60]
  · have hd : d < 60 := Nat.lt_of_not_le h
    interval_cases d <;>
      norm_num [get_time_pressure_multiplier, seg_ge60, seg_30_60, seg_14_30,
        seg_7_14, seg_3_7, seg_lt3]

lemma mult_antitone {d e : ℕ} (h : d ≤ e) :
    get_time_pressure_multiplier e ≤ get_time_pressure_multiplier d := by
  induction h with
  | refl => exact le_refl _
  | step h ih => exact le_trans (mult_succ_le _) ih

lemma one_le_mult (d : ℕ) : 1 ≤ get_time_pressure_multiplier d := by
  by_cases h : 60 ≤ d
  · simp [get_time_pressure_multiplier, h, seg_ge60]
  · have h60 : get_time_pressure_multiplier 60 = 1 := by
      norm_num [get_time_pressure_multiplier, seg_ge60]
    rw [← h60]
    exact mult_antitone (le_of_lt (Nat.lt_of_not_le h))

/-- C2: boundary profile of the time-pressure multiplier.  The claimed
values hold at 60, 30, 7, 3 and 0 days, and the adjacent segment
formulas agree at those boundaries; but at 14 days the code yields
1.2 + 16/53 = 398/265 (about 1.50189), not the 1.5 promised by the
function's own docstring, and the 14-day boundary is discontinuous by
exactly 1/530. -/
theorem time_pressure_boundary_values :
    get_time_pressure_multiplier 60 = 1 ∧
    get_time_pressure_multiplier 30 = 12/10 ∧
    get_time_pressure_multiplier 14 = 398/265 ∧
    get_time_pressure_multiplier 14 ≠ 15/10 ∧
    get_time_pressure_multiplier 7 = 2 ∧
    get_time_pressure_multiplier 3 = 3 ∧
    get_time_pressure_multiplier 0 = 3 ∧
    seg_ge60 60 = seg_30_60 60 ∧
    seg_30_60 30 = seg_14_30 30 ∧
    seg_7_14 7 = seg_3_7 7 ∧
    seg_3_7 3 = seg_lt3 3 ∧
    seg_14_30 14 - seg_7_14 14 = 1/530 := by
  norm_num [get_time_pressure_multiplier, seg_ge60, seg_30_60, seg_14_30,
    seg_7_14, seg_3_7, seg_lt3]


lemma lookupLast_mem {signals : List SignalOutput} {n : String} {s : SignalOutput}
    (h : lookupLast signals n = some s) : s ∈ signals := by
  unfold lookupLast at h
  exact List.mem_reverse.mp (List.mem_of_find?_eq_some h)

lemma lookupLast_name {signals : List SignalOutput} {n : String} {s : SignalOutput}
    (h : lookupLast signals n = some s) : s.name = n := by
  unfold lookupLast at h
  have hp := List.find?_some h
  simpa using hp

lemma agg_fold_bounds (signals : List SignalOutput)
    (hs : ∀ s ∈ signals,
      0 ≤ s.value ∧ s.value ≤ 100 ∧ 0 ≤ s.confidence ∧ s.confidence ≤ 1)
    (l : List (String × ℚ)) (hl : ∀ p ∈ l, 0 ≤ p.2) (a : ℚ × ℚ × ℚ)
    (h1 : 0 ≤ a.1) (h2 : a.1 ≤ 100 * a.2.2) (h3 : 0 ≤ a.2.1) (h4 : 0 ≤ a.2.2) :
    0 ≤ (l.foldl (agg_step signals) a).1 ∧
    (l.foldl (agg_step signals) a).1 ≤ 100 * (l.foldl (agg_step signals) a).2.2 ∧
    0 ≤ (l.foldl (agg_step signals) a).2.1 ∧
    (l.foldl (agg_step signals) a).2.1 ≤ a.2.1 + (l.map Prod.snd).sum ∧
    0 ≤ (l.foldl (agg_step signals) a).2.2 := by
  induction l generalizing a with
  | nil =>
    simp only [List.foldl_nil, List.map_nil, List.sum_nil, add_zero]
    exact ⟨h1, h2, h3, le_refl _, h4⟩
  | cons p t ih =>
    simp only [List.foldl_cons, List.map_cons, List.sum_cons]
    have hp : 0 ≤ p.2 := hl p (List.mem_cons_self _ _)
    have hts : ∀ q ∈ t, 0 ≤ q.2 := fun q hq => hl q (List.mem_cons_of_mem _ hq)
    rcases hfind : lookupLast signals p.1 with _ | s
    · have hstep : agg_step signals a p = a := by
        unfold agg_step
        rw [hfind]
      rw [hstep]
      obtain ⟨b1, b2, b3, b4, b5⟩ := ih hts a h1 h2 h3 h4
      exact ⟨b1, b2, b3, by linarith, b5⟩
    · obtain ⟨hv0, hv1, hc0, hc1⟩ := hs s (lookupLast_mem hfind)
      have hstep : agg_step signals a p =
          (a.1 + s.value * (p.2 * s.confidence), a.2.1 + s.confidence * p.2,
            a.2.2 + p.2 * s.confidence) := by
        unfold agg_step
        rw [hfind]
      rw [hstep]
      have hwc : 0 ≤ p.2 * s.confidence := mul_nonneg hp hc0
      have key1 : 0 ≤ a.1 + s.value * (p.2 * s.confidence) :=
        add_nonneg h1 (mul_nonneg hv0 hwc)
      have key2 : a.1 + s.value * (p.2 * s.confidence) ≤
          100 * (a.2.2 + p.2 * s.confidence) := by
        have hvu : s.value * (p.2 * s.confidence) ≤ 100 * (p.2 * s.confidence) :=
          mul_le_mul_of_nonneg_right hv1 hwc
        linarith
      have key3 : 0 ≤ a.2.1 + s.confidence * p.2 :=
        add_nonneg h3 (mul_nonneg hc0 hp)
      have key5 : 0 ≤ a.2.2 + p.2 * s.confidence := add_nonneg h4 hwc
      obtain ⟨b1, b2, b3, b4, b5⟩ := ih hts
        (a.1 + s.value * (p.2 * s.confidence), a.2.1 + s.confidence * p.2,
          a.2.2 + p.2 * s.confidence) key1 key2 key3 key5
      refine ⟨b1, b2, b3, ?_, b5⟩
      have hcw : s.confidence * p.2 ≤ p.2 := by
        calc s.confidence * p.2 ≤ 1 * p.2 := mul_le_mul_of_nonneg_right hc1 hp
        _ = p.2 := one_mul _
      simp only at b4
      linarith

/-- C1 (amended): for every list of input signals whose values lie in
[0, 100] and confidences in [0, 1] — the declared ranges of the
SignalOutput contract — the composite index has score in [0, 100] and
confidence in [0, 1]. -/
theorem aggregate_score_confidence_bounds (signals : List SignalOutput)
    (days : ℕ) (now : ℚ)
    (h : ∀ s ∈ signals,
      0 ≤ s.value ∧ s.value ≤ 100 ∧ 0 ≤ s.confidence ∧ s.confidence ≤ 1) :
    0 ≤ (aggregate signals days now).score ∧
    (aggregate signals days now).score ≤ 100 ∧
    0 ≤ (aggregate signals days now).confidence ∧
    (aggregate signals days now).confidence ≤ 1 := by
  obtain ⟨b1, b2, b3, b4, b5⟩ :=
    agg_fold_bounds signals h weights
      (by norm_num [weights]) (0, 0, 0) (by norm_num) (by norm_num)
      (by norm_num) (by norm_num)
  have hsum : (weights.map Prod.snd).sum = 1 := by norm_num [weights]
  rw [hsum] at b4
  have hacc : aggAccum signals = weights.foldl (agg_step signals) (0, 0, 0) := rfl
  rw [← hacc] at b1 b2 b3 b4 b5
  simp only at b4
  have hmul : 0 ≤ get_time_pressure_multiplier days :=
    le_trans zero_le_one (one_le_mult days)
  have hws : weightSum = 1 := by norm_num [weightSum, weights]
  have hscore : (aggregate signals days now).score =
      min 100 ((if 0 < (aggAccum signals).2.2 then
        (aggAccum signals).1 / (aggAccum signals).2.2 else 0) *
        get_time_pressure_multiplier days) := rfl
  have hconf : (aggregate signals days now).confidence =
      (if 0 < (aggAccum signals).2.2 then
        (aggAccum signals).2.1 / weightSum else 0) := rfl
  refine ⟨?_, ?_, ?_, ?_⟩
  · rw [hscore]
    refine le_min (by norm_num) (mul_nonneg ?_ hmul)
    split_ifs with hpos
    · exact div_nonneg b1 (le_of_lt hpos)
    · exact le_refl 0
  · rw [hscore]
    exact min_le_left _ _
  · rw [hconf]
    split_ifs with hpos
    · rw [hws, div_one]
      exact b3
    · exact le_refl 0
  · rw [hconf]
    split_ifs with hpos
    · rw [hws, div_one]
      linarith
    · norm_num

theorem aggregate_bounds_witness :
    0 ≤ (aggregate [⟨"telegram_velocity", 50, 1⟩] 60 0).score ∧
    (aggregate [⟨"telegram_velocity", 50, 1⟩] 60 0).score ≤ 100 ∧
    0 ≤ (aggregate [⟨"telegram_velocity", 50, 1⟩] 60 0).confidence ∧
    (aggregate [⟨"telegram_velocity", 50, 1⟩] 60 0).confidence ≤ 1 := by
  refine aggregate_score_confidence_bounds _ 60 0 ?_
  intro s hs
  simp only [List.mem_singleton] at hs
  rw [hs]
  norm_num

/-- C1 counterexample: for an input signal outside the declared ranges
(value -50, confidence 1) the composite score is negative, so the claim
does not hold for signals of arbitrary value. -/
theorem aggregate_range_counterexample :
    ¬ (0 ≤ (aggregate [⟨"telegram_velocity", -50, 1⟩] 60 0).score) := by
  have e1 : lookupLast [⟨"telegram_velocity", -50, 1⟩] "telegram_velocity" =
      some ⟨"telegram_velocity", -50, 1⟩ := rfl
  have e2 : lookupLast [⟨"telegram_velocity", -50, 1⟩] "rial_crash" = none := rfl
  have e3 : lookupLast [⟨"telegram_velocity", -50, 1⟩] "state_media_silence" =
      none := rfl
  norm_num [aggregate, aggAccum, agg_step, weights, weightSum, e1, e2, e3,
    get_time_pressure_multiplier, seg_ge60]


lemma agg_fold_tw_zero (signals : List SignalOutput)
    (h : ∀ s ∈ signals, weight_of s.name * s.confidence = 0)
    (l : List (String × ℚ)) (hl : ∀ p ∈ l, weight_of p.1 = p.2)
    (a : ℚ × ℚ × ℚ) (ha : a.2.2 = 0) :
    (l.foldl (agg_step signals) a).2.2 = 0 := by
  induction l generalizing a with
  | nil => exact ha
  | cons p t ih =>
    simp only [List.foldl_cons]
    refine ih (fun q hq => hl q (List.mem_cons_of_mem _ hq)) _ ?_
    rcases hfind : lookupLast signals p.1 with _ | s
    · have hstep : agg_step signals a p = a := by
        unfold agg_step
        rw [hfind]
      rw [hstep]
      exact ha
    · have hstep : agg_step signals a p =
          (a.1 + s.value * (p.2 * s.confidence), a.2.1 + s.confidence * p.2,
            a.2.2 + p.2 * s.confidence) := by
        unfold agg_step
        rw [hfind]
      rw [hstep]
      have hz := h s (lookupLast_mem hfind)
      rw [lookupLast_name hfind, hl p (List.mem_cons_self _ _)] at hz
      show a.2.2 + p.2 * s.confidence = 0
      rw [ha, hz, add_zero]


/-- C5: when every signal carries zero effective weight (for instance
every confidence is 0, or the list is empty, or only unconfigured names
appear), the aggregator returns score 0, confidence 0 and level GREEN;
the embedding is a total function, mirroring that the guarded code never
raises. -/
theorem degenerate_fusion (signals : List SignalOutput) (days : ℕ) (now : ℚ)
    (h : ∀ s ∈ signals, weight_of s.name * s.confidence = 0) :
    (aggregate signals days now).score = 0 ∧
    (aggregate signals days now).confidence = 0 ∧
    (aggregate signals days now).level = "GREEN" := by
  have key : (aggAccum signals).2.2 = 0 := by
    have hl : ∀ p ∈ weights, weight_of p.1 = p.2 := by
      intro p hp
      fin_cases hp <;> rfl
    exact agg_fold_tw_zero signals h weights hl (0, 0, 0) rfl
  have hscore : (aggregate signals days now).score =
      min 100 ((if 0 < (aggAccum signals).2.2 then
        (aggAccum signals).1 / (aggAccum signals).2.2 else 0) *
        get_time_pressure_multiplier days) := rfl
  have hconf : (aggregate signals days now).confidence =
      (if 0 < (aggAccum signals).2.2 then
        (aggAccum signals).2.1 / weightSum else 0) := rfl
  have hnpos : ¬ 0 < (aggAccum signals).2.2 := by
    rw [key]
    exact lt_irrefl 0
  have hs0 : (aggregate signals days now).score = 0 := by
    rw [hscore, if_neg hnpos, zero_mul]
    exact min_eq_right (by norm_num)
  refine ⟨hs0, ?_, ?_⟩
  · rw [hconf, if_neg hnpos]
  · have hlevel : (aggregate signals days now).level =
        (if thresholds_red ≤ (aggregate signals days now).score then "RED"
         else if thresholds_yellow ≤ (aggregate signals days now).score then "YELLOW"
         else "GREEN") := rfl
    rw [hlevel, hs0]
    norm_num [thresholds_red, thresholds_yellow]

theorem degenerate_fusion_witness :
    (aggregate [⟨"telegram_velocity", 80, 0⟩, ⟨"unknown_signal", 50, 1⟩] 10 0).score = 0 ∧
    (aggregate [⟨"telegram_velocity", 80, 0⟩, ⟨"unknown_signal", 50, 1⟩] 10 0).confidence = 0 ∧
    (aggregate [⟨"telegram_velocity", 80, 0⟩, ⟨"unknown_signal", 50, 1⟩] 10 0).level = "GREEN" := by
  refine degenerate_fusion _ 10 0 ?_
  intro s hs
  fin_cases hs
  · exact mul_zero _
  · exact zero_mul _

/-- C6: should_alert returns true exactly when the level differs from
the last alerted level, or the level is RED (even when already alerted
RED), or the 10-minute rate of change is defined and strictly exceeds
20 points. -/
theorem should_alert_iff (history : List KhameneiIndex) (now : ℚ)
    (current : KhameneiIndex) (last_alerted_level : String) :
    should_alert history now current last_alerted_level = true ↔
      (current.level ≠ last_alerted_level ∨ current.level = "RED" ∨
        ∃ r, get_rate_of_change history now 10 = some r ∧ 20 < r) := by
  unfold should_alert
  by_cases h1 : current.level ≠ last_alerted_level
  · simp [h1]
  · rw [if_neg h1]
    by_cases h2 : current.level = "RED"
    · simp [h2]
    · rw [if_neg h2]
      simp only [not_not] at h1
      rw [h1] at h2
      rcases hroc : get_rate_of_change history now 10 with _ | r
      · simp [h1, h2, hroc]
      · by_cases h3 : 20 < r
        · have hr0 : r ≠ 0 := by
            intro h0
            rw [h0] at h3
            norm_num at h3
          simp [h1, h2, hroc, h3, hr0]
        · have hno : ¬ (r ≠ 0 ∧ 20 < r) := fun hc => h3 hc.2
          simp [h1, h2, hroc, h3, hno]

end KhameneiOut
